import Mathlib

/-!
Verification of the compass component (src/src/components/Compass.tsx).

The component computes a great-circle bearing between two geographic
points, maps it to one of 16 compass labels, and animates a displayed
angle toward the computed bearing with a shortest-path easing loop.

JavaScript numbers are modelled as real numbers.  The JavaScript binary
percent operator on numbers is remainder after division truncated toward
zero; it is embedded as jsMod below.  Math.atan2 is embedded through
Complex.arg, whose range on reals (no negative zero) coincides with the
JavaScript range, and Math.round rounds half toward positive infinity,
embedded as roundJS.
-/

open Real

/-- Truncation toward zero of a real number, as used by the JavaScript
remainder operator. -/
noncomputable def truncR (x : ℝ) : ℤ := if 0 ≤ x then ⌊x⌋ else ⌈x⌉

/-- JavaScript remainder a % b for numbers: a - b * trunc (a / b). -/
noncomputable def jsMod (a b : ℝ) : ℝ := a - b * truncR (a / b)

/-- JavaScript Math.atan2 y x on reals, embedded as the argument of the
complex number x + y i; the range is the interval (-pi, pi]. -/
noncomputable def atan2 (y x : ℝ) : ℝ := Complex.arg { re := x, im := y }

/-- JavaScript Math.round: nearest integer, half rounded toward positive
infinity, i.e. the floor of x + 1/2. -/
noncomputable def roundJS (x : ℝ) : ℤ := ⌊x + 1/2⌋

/-- A geographic point with latitude and longitude in degrees
(the lat and lng fields of the location props in Compass.tsx). -/
structure GeoPoint where
  lat : ℝ
  lng : ℝ

/-- Embedding of calculateBearing (Compass.tsx lines 21-38).  The start
and stop arguments are optional, matching the null checks of line 23;
null or coordinate-equal inputs return 0, otherwise the forward-azimuth
formula is applied and the result of atan2 in degrees is normalized by
(bearing + 360) % 360. -/
noncomputable def calculateBearing (start stop : Option GeoPoint) : ℝ :=
  match start, stop with
  | some s, some e =>
    if s.lat = e.lat ∧ s.lng = e.lng then 0
    else
      let lat1 := s.lat * π / 180
      let lat2 := e.lat * π / 180
      let dLng := (e.lng - s.lng) * π / 180
      let y := Real.sin dLng * Real.cos lat2
      let x := Real.cos lat1 * Real.sin lat2 -
        Real.sin lat1 * Real.cos lat2 * Real.cos dLng
      jsMod (atan2 y x * 180 / π + 360) 360
  | _, _ => 0

/-- The 16-entry direction table of bearingToDirection
(Compass.tsx line 42). -/
def directions : List String :=
  ["N", "NNE", "NE", "ENE", "E", "ESE", "SE", "SSE",
   "S", "SSW", "SW", "WSW", "W", "WNW", "NW", "NNW"]

/-- Embedding of bearingToDirection (Compass.tsx lines 41-45):
index = Math.round (bearing / 22.5) % 16 and a lookup in the direction
table.  The JavaScript remainder on integers truncates toward zero
(Int.tmod); an index outside the table yields undefined, embedded as
none via the optional list lookup (negative indices guarded
explicitly). -/
noncomputable def bearingToDirection (bearing : ℝ) : Option String :=
  let index := Int.tmod (roundJS (bearing / 22.5)) 16
  if index < 0 then none else directions.get? index.toNat

/-- The shortest angular distance computed by the animation step
(Compass.tsx line 66): delta = ((target - current + 540) % 360) - 180. -/
noncomputable def delta (target current : ℝ) : ℝ :=
  jsMod (target - current + 540) 360 - 180

/-- One animation tick (Compass.tsx lines 61-79).  Returns the new
displayed angle and whether a further frame is requested: if the
absolute delta is below 0.3 the angle snaps to the target and no frame
is scheduled; otherwise the angle eases by delta * 0.18, is normalized
into [0, 360) by adding 360 and taking the remainder, and a further
frame is requested. -/
noncomputable def tick (target current : ℝ) : ℝ × Bool :=
  if |delta target current| < 0.3 then (target, false)
  else (jsMod (current + delta target current * 0.18 + 360) 360, true)

/-- The displayed angle after n animation ticks toward a fixed target,
starting from c. -/
noncomputable def tickN (target : ℝ) (n : ℕ) (c : ℝ) : ℝ :=
  (fun x => (tick target x).1)^[n] c

/-- The two pieces of component state set together by the position
update effect: the direction label and the bearing in degrees
(Compass.tsx lines 14-15). -/
structure CompassState where
  direction : Option String
  degrees : ℝ

/-- Embedding of the position-update effect (Compass.tsx lines 48-54):
when both locations are present, the bearing is recomputed once and
both the degrees and the direction label are set from that single
result; otherwise the state is left unchanged. -/
noncomputable def updateCompass (busLocation previousLocation : Option GeoPoint)
    (s : CompassState) : CompassState :=
  match busLocation, previousLocation with
  | some b, some p =>
    let bearing := calculateBearing (some p) (some b)
    { direction := bearingToDirection bearing, degrees := bearing }
  | _, _ => s

/-! ## Basic properties of jsMod -/

theorem truncR_of_nonneg {x : ℝ} (h : 0 ≤ x) : truncR x = ⌊x⌋ := if_pos h

theorem jsMod_eq_floor {a b : ℝ} (ha : 0 ≤ a) (hb : 0 < b) :
    jsMod a b = a - b * ⌊a / b⌋ := by
  unfold jsMod
  rw [truncR_of_nonneg (div_nonneg ha hb.le)]

theorem jsMod_nonneg {a b : ℝ} (ha : 0 ≤ a) (hb : 0 < b) : 0 ≤ jsMod a b := by
  rw [jsMod_eq_floor ha hb]
  have h3 : ((⌊a / b⌋ : ℝ)) ≤ a / b := Int.floor_le _
  have h4 : ((⌊a / b⌋ : ℝ)) * b ≤ a / b * b :=
    mul_le_mul_of_nonneg_right h3 hb.le
  rw [div_mul_cancel₀ a hb.ne'] at h4
  linarith

theorem jsMod_lt {a b : ℝ} (ha : 0 ≤ a) (hb : 0 < b) : jsMod a b < b := by
  rw [jsMod_eq_floor ha hb]
  have h3 : a / b < (⌊a / b⌋ : ℝ) + 1 := Int.lt_floor_add_one _
  have h4 : a / b * b < ((⌊a / b⌋ : ℝ) + 1) * b :=
    mul_lt_mul_of_pos_right h3 hb
  rw [div_mul_cancel₀ a hb.ne'] at h4
  linarith

theorem jsMod_eq_of {a b r : ℝ} (k : ℤ) (ha : 0 ≤ a) (hb : 0 < b)
    (hk : a - b * k = r) (h0 : 0 ≤ r) (h1 : r < b) : jsMod a b = r := by
  rw [jsMod_eq_floor ha hb]
  have hfl : ⌊a / b⌋ = k := by
    rw [Int.floor_eq_iff]
    constructor
    · rw [le_div_iff₀ hb]
      nlinarith
    · rw [div_lt_iff₀ hb]
      nlinarith
  rw [hfl]
  linarith

theorem jsMod_sub_int (a b : ℝ) : ∃ k : ℤ, jsMod a b = a - b * k :=
  ⟨truncR (a / b), rfl⟩

theorem jsMod_self_of_small {a b : ℝ} (hb : 0 < b) (hlo : -b < a)
    (hhi : a < b) : jsMod a b = a := by
  unfold jsMod
  rcases le_or_lt 0 (a / b) with h | h
  · rw [truncR_of_nonneg h]
    have hfl : ⌊a / b⌋ = 0 := by
      rw [Int.floor_eq_iff]
      refine ⟨by exact_mod_cast h, ?_⟩
      push_cast
      rw [div_lt_iff₀ hb]
      linarith
    rw [hfl]
    push_cast
    ring
  · rw [truncR, if_neg (not_le.mpr h)]
    have hcl : ⌈a / b⌉ = 0 := by
      rw [Int.ceil_eq_iff]
      constructor
      · push_cast
        rw [lt_div_iff₀ hb]
        linarith
      · exact_mod_cast h.le
    rw [hcl]
    push_cast
    ring

/-! ## Properties of the shortest angular distance -/

theorem delta_lb {t c : ℝ} (ha : 0 ≤ t - c + 540) : -180 ≤ delta t c := by
  unfold delta
  have := jsMod_nonneg ha (show (0:ℝ) < 360 by norm_num)
  linarith

theorem delta_ub {t c : ℝ} (ha : 0 ≤ t - c + 540) : delta t c < 180 := by
  unfold delta
  have := jsMod_lt ha (show (0:ℝ) < 360 by norm_num)
  linarith

theorem delta_congr (t c : ℝ) : ∃ m : ℤ, t - c = delta t c + 360 * m := by
  obtain ⟨k, hk⟩ := jsMod_sub_int (t - c + 540) 360
  refine ⟨k - 1, ?_⟩
  unfold delta
  rw [hk]
  push_cast
  ring

theorem delta_eq {t c x : ℝ} (m : ℤ) (hm : t - c = x + 360 * m)
    (h0 : -180 ≤ x) (h1 : x < 180) (ha : 0 ≤ t - c + 540) : delta t c = x := by
  unfold delta
  have h := jsMod_eq_of (a := t - c + 540) (b := 360) (r := x + 180) (m + 1)
    ha (by norm_num) (by push_cast; linarith) (by linarith) (by linarith)
  linarith

theorem delta_self (t : ℝ) : delta t t = 0 :=
  delta_eq 0 (by push_cast; ring) (by norm_num) (by norm_num) (by linarith)

/-! ## Properties of one animation tick -/

theorem tick_snap {t c : ℝ} (h : |delta t c| < 0.3) : tick t c = (t, false) := by
  unfold tick
  rw [if_pos h]

theorem tick_ease_val {t c : ℝ} (h : ¬ |delta t c| < 0.3) :
    tick t c = (jsMod (c + delta t c * 0.18 + 360) 360, true) := by
  unfold tick
  rw [if_neg h]

theorem tick_self (t : ℝ) : tick t t = (t, false) :=
  tick_snap (by rw [delta_self]; norm_num)

theorem tick_ease_props {t c : ℝ} (ht0 : 0 ≤ t) (ht1 : t < 360)
    (hc0 : 0 ≤ c) (hc1 : c < 360) (h : ¬ |delta t c| < 0.3) :
    0 ≤ (tick t c).1 ∧ (tick t c).1 < 360 ∧
      delta t (tick t c).1 = 0.82 * delta t c := by
  have ha : 0 ≤ t - c + 540 := by linarith
  have hlb := delta_lb ha
  have hub := delta_ub ha
  have harg : 0 ≤ c + delta t c * 0.18 + 360 := by nlinarith
  rw [tick_ease_val h]
  refine ⟨jsMod_nonneg harg (by norm_num), jsMod_lt harg (by norm_num), ?_⟩
  obtain ⟨m, hm⟩ := delta_congr t c
  obtain ⟨k, hk⟩ := jsMod_sub_int (c + delta t c * 0.18 + 360) 360
  have hlt := jsMod_lt harg (show (0:ℝ) < 360 by norm_num)
  refine delta_eq (m + k - 1) ?_ (by nlinarith) (by nlinarith) (by linarith)
  rw [hk]
  push_cast
  linarith

theorem tick_range {t c : ℝ} (ht0 : 0 ≤ t) (ht1 : t < 360)
    (hc0 : 0 ≤ c) (hc1 : c < 360) :
    0 ≤ (tick t c).1 ∧ (tick t c).1 < 360 := by
  by_cases h : |delta t c| < 0.3
  · rw [tick_snap h]
    exact ⟨ht0, ht1⟩
  · have hp := tick_ease_props ht0 ht1 hc0 hc1 h
    exact ⟨hp.1, hp.2.1⟩

/-! ## Iterated ticking -/

theorem tickN_zero (t c : ℝ) : tickN t 0 c = c := rfl

theorem tickN_succ (t : ℝ) (n : ℕ) (c : ℝ) :
    tickN t (n + 1) c = tickN t n (tick t c).1 :=
  Function.iterate_succ_apply _ n c

theorem tickN_succ_outer (t : ℝ) (n : ℕ) (c : ℝ) :
    tickN t (n + 1) c = (tick t (tickN t n c)).1 :=
  Function.iterate_succ_apply' _ n c

theorem tickN_fixed (t : ℝ) (n : ℕ) : tickN t n t = t := by
  induction n with
  | zero => rfl
  | succ n ih =>
    rw [tickN_succ, tick_self]
    exact ih

theorem tickN_decay (t : ℝ) (ht0 : 0 ≤ t) (ht1 : t < 360) :
    ∀ n : ℕ, ∀ c : ℝ, 0 ≤ c → c < 360 →
      tickN t n c = t ∨
      (0 ≤ tickN t n c ∧ tickN t n c < 360 ∧
        |delta t (tickN t n c)| ≤ 0.82 ^ n * |delta t c|) := by
  intro n
  induction n with
  | zero =>
    intro c hc0 hc1
    right
    exact ⟨hc0, hc1, by rw [tickN_zero, pow_zero, one_mul]⟩
  | succ n ih =>
    intro c hc0 hc1
    by_cases h : |delta t c| < 0.3
    · left
      rw [tickN_succ, tick_snap h]
      exact tickN_fixed t n
    · obtain ⟨h0, h1, h2⟩ := tick_ease_props ht0 ht1 hc0 hc1 h
      rcases ih (tick t c).1 h0 h1 with heq | ⟨g0, g1, g2⟩
      · left
        rw [tickN_succ]
        exact heq
      · right
        rw [tickN_succ]
        refine ⟨g0, g1, ?_⟩
        calc |delta t (tickN t n (tick t c).1)|
            ≤ 0.82 ^ n * |delta t (tick t c).1| := g2
          _ = 0.82 ^ n * (0.82 * |delta t c|) := by
              rw [h2, abs_mul, abs_of_pos (show (0:ℝ) < 0.82 by norm_num)]
          _ = 0.82 ^ (n + 1) * |delta t c| := by ring

/-! ## Properties of rounding and the direction table -/

theorem roundJS_eq {x : ℝ} (n : ℤ) (h1 : (n:ℝ) ≤ x + 1/2)
    (h2 : x + 1/2 < (n:ℝ) + 1) : roundJS x = n := by
  unfold roundJS
  rw [Int.floor_eq_iff]
  exact ⟨h1, h2⟩

theorem bearingToDirection_eval_mod {b : ℝ} {n : ℕ}
    (hn : roundJS (b / 22.5) = (n:ℤ)) :
    bearingToDirection b = directions.get? (n % 16) := by
  unfold bearingToDirection
  rw [hn, Int.tmod_eq_emod (Int.natCast_nonneg n) (by norm_num)]
  have hcast : ((n:ℤ)) % 16 = ((n % 16 : ℕ) : ℤ) := by
    push_cast
    rfl
  rw [hcast, if_neg (not_lt.mpr (Int.natCast_nonneg _)), Int.toNat_natCast]

theorem bearingToDirection_eval {b : ℝ} {n : ℕ}
    (hn : roundJS (b / 22.5) = (n:ℤ)) (hlt : n < 16) :
    bearingToDirection b = directions.get? n := by
  rw [bearingToDirection_eval_mod hn, Nat.mod_eq_of_lt hlt]

theorem roundJS_bearing_nonneg {b : ℝ} (h0 : 0 ≤ b) :
    0 ≤ roundJS (b / 22.5) := by
  unfold roundJS
  rw [Int.le_floor]
  have : (0:ℝ) ≤ b / 22.5 := div_nonneg h0 (by norm_num)
  push_cast
  linarith

theorem bearingToDirection_isSome {b : ℝ} (h0 : 0 ≤ b) (h1 : b < 360) :
    (bearingToDirection b).isSome = true := by
  have hr0 := roundJS_bearing_nonneg h0
  have hn : roundJS (b / 22.5) = ((roundJS (b / 22.5)).toNat : ℤ) :=
    (Int.toNat_of_nonneg hr0).symm
  rw [bearingToDirection_eval_mod hn]
  have hlen : (roundJS (b / 22.5)).toNat % 16 < directions.length :=
    Nat.mod_lt _ (by norm_num)
  rw [List.get?_eq_get hlen]
  rfl

/-! ## Range of the atan2 embedding and of the normalized bearing -/

theorem atan2_le_pi (y x : ℝ) : atan2 y x ≤ π := Complex.arg_le_pi _

theorem neg_pi_lt_atan2 (y x : ℝ) : -π < atan2 y x := Complex.neg_pi_lt_arg _

theorem jsMod_deg_range {θ : ℝ} (h0 : -π < θ) (h1 : θ ≤ π) :
    0 ≤ jsMod (θ * 180 / π + 360) 360 ∧ jsMod (θ * 180 / π + 360) 360 < 360 := by
  have hpi := Real.pi_pos
  have hdeg1 : θ * 180 / π ≤ 180 := by
    rw [div_le_iff₀ hpi]
    nlinarith
  have hdeg0 : -180 < θ * 180 / π := by
    rw [lt_div_iff₀ hpi]
    nlinarith
  have ha : 0 ≤ θ * 180 / π + 360 := by linarith
  exact ⟨jsMod_nonneg ha (by norm_num), jsMod_lt ha (by norm_num)⟩

theorem delta_180_0 : delta 180 0 = -180 := by
  have h := jsMod_eq_of (a := (180:ℝ) - 0 + 540) (b := 360) (r := 0) 2
    (by norm_num) (by norm_num) (by norm_num) (by norm_num) (by norm_num)
  unfold delta
  rw [h]
  norm_num

/-! ## Claims -/

/-- Claim C1: for every pair of points, calculateBearing lies in the
half-open range [0, 360) and 360 is never returned; moreover the code
normalization (bearing + 360) % 360 agrees with the spec normalization
((bearing % 360) + 360) % 360 on the atan2 output range [-180, 180]. -/
theorem calculateBearing_range_norm :
    (∀ p q : GeoPoint, 0 ≤ calculateBearing (some p) (some q) ∧
      calculateBearing (some p) (some q) < 360) ∧
    (∀ b : ℝ, -180 ≤ b → b ≤ 180 →
      jsMod (jsMod b 360 + 360) 360 = jsMod (b + 360) 360) := by
  constructor
  · intro p q
    simp only [calculateBearing]
    split_ifs with h
    · norm_num
    · exact jsMod_deg_range (neg_pi_lt_atan2 _ _) (atan2_le_pi _ _)
  · intro b hb0 hb1
    have hinner : jsMod b 360 = b :=
      jsMod_self_of_small (by norm_num) (by linarith) (by linarith)
    rw [hinner]

/-- Witness for claim C1 at b = 0. -/
theorem calculateBearing_range_norm_witness :
    (-180 ≤ (0:ℝ) ∧ (0:ℝ) ≤ 180) ∧
      jsMod (jsMod 0 360 + 360) 360 = jsMod ((0:ℝ) + 360) 360 :=
  ⟨⟨by norm_num, by norm_num⟩,
    calculateBearing_range_norm.2 0 (by norm_num) (by norm_num)⟩

/-- Claim C2 counterexample: for currentAngle 0 and targetAngle 180,
both in [0, 360), the shortest-path delta is exactly -180, which lies
outside the claimed half-open interval (-180, 180]. -/
theorem delta_opposition_cex :
    delta 180 0 = -180 ∧ ¬ (-180 < delta 180 0 ∧ delta 180 0 ≤ 180) := by
  refine ⟨delta_180_0, ?_⟩
  rw [delta_180_0]
  norm_num

/-- Claim C2 amended: for every currentAngle and targetAngle in
[0, 360) the shortest-path delta lies in the half-open range
[-180, 180); for current 0, target 180 it resolves to -180, always the
same direction. -/
theorem delta_shortest_path_range (t c : ℝ) (ht0 : 0 ≤ t) (ht1 : t < 360)
    (hc0 : 0 ≤ c) (hc1 : c < 360) :
    (-180 ≤ delta t c ∧ delta t c < 180) ∧ delta 180 0 = -180 := by
  have ha : 0 ≤ t - c + 540 := by linarith
  exact ⟨⟨delta_lb ha, delta_ub ha⟩, delta_180_0⟩

/-- Witness for the amended claim C2 at target 180, current 0. -/
theorem delta_shortest_path_range_witness :
    ((0:ℝ) ≤ 180 ∧ (180:ℝ) < 360 ∧ (0:ℝ) ≤ 0 ∧ (0:ℝ) < 360) ∧
      ((-180 ≤ delta 180 0 ∧ delta 180 0 < 180) ∧ delta 180 0 = -180) :=
  ⟨⟨by norm_num, by norm_num, le_refl 0, by norm_num⟩,
    delta_shortest_path_range 180 0 (by norm_num) (by norm_num)
      (le_refl 0) (by norm_num)⟩

/-- Claim C3: animating from current 350 toward target 10 computes the
signed delta +20 through the 0/360 boundary, not -340, and the eased
tick lands at 353.6, moving clockwise through the boundary. -/
theorem delta_wraparound :
    delta 10 350 = 20 ∧ (tick 10 350).1 = 353.6 := by
  have hd : delta 10 350 = 20 := by
    have h := jsMod_eq_of (a := (10:ℝ) - 350 + 540) (b := 360) (r := 200) 0
      (by norm_num) (by norm_num) (by norm_num) (by norm_num) (by norm_num)
    unfold delta
    rw [h]
    norm_num
  refine ⟨hd, ?_⟩
  have hno : ¬ |delta 10 350| < 0.3 := by
    rw [hd]
    norm_num
  rw [tick_ease_val hno]
  show jsMod (350 + delta 10 350 * 0.18 + 360) 360 = 353.6
  rw [hd]
  exact jsMod_eq_of 1 (by norm_num) (by norm_num) (by norm_num)
    (by norm_num) (by norm_num)

/-- Claim C4: on [0, 360) the rounded sector index always hits the
16-entry table (the lookup is never out of bounds), and the anchor
bearings 0, 90, 180, 270 map to N, E, S, W. -/
theorem bearingToDirection_total (b : ℝ) (h0 : 0 ≤ b) (h1 : b < 360) :
    (bearingToDirection b).isSome = true ∧
    bearingToDirection 0 = some "N" ∧ bearingToDirection 90 = some "E" ∧
    bearingToDirection 180 = some "S" ∧ bearingToDirection 270 = some "W" := by
  refine ⟨bearingToDirection_isSome h0 h1, ?_, ?_, ?_, ?_⟩
  · rw [bearingToDirection_eval (n := 0)
      (roundJS_eq _ (by norm_num) (by norm_num)) (by norm_num)]
    rfl
  · rw [bearingToDirection_eval (n := 4)
      (roundJS_eq _ (by norm_num) (by norm_num)) (by norm_num)]
    rfl
  · rw [bearingToDirection_eval (n := 8)
      (roundJS_eq _ (by norm_num) (by norm_num)) (by norm_num)]
    rfl
  · rw [bearingToDirection_eval (n := 12)
      (roundJS_eq _ (by norm_num) (by norm_num)) (by norm_num)]
    rfl

/-- Witness for claim C4 at b = 0. -/
theorem bearingToDirection_total_witness :
    ((0:ℝ) ≤ 0 ∧ (0:ℝ) < 360) ∧ (bearingToDirection 0).isSome = true :=
  ⟨⟨le_refl 0, by norm_num⟩, (bearingToDirection_total 0 (le_refl 0) (by norm_num)).1⟩

/-- Claim C5: calculateBearing returns 0 exactly on coordinate-equal
points and on null or absent arguments, in every case without error
(the function is total). -/
theorem calculateBearing_degenerate :
    (∀ p : GeoPoint, calculateBearing (some p) (some p) = 0) ∧
    (∀ q : Option GeoPoint, calculateBearing none q = 0 ∧
      calculateBearing q none = 0) := by
  constructor
  · intro p
    simp [calculateBearing]
  · intro q
    cases q with
    | none => exact ⟨rfl, rfl⟩
    | some p => exact ⟨rfl, rfl⟩

/-- Claim C6: from any start angle in [0, 360) toward any fixed target
in [0, 360), iterating the tick reaches the target exactly within 34
ticks (the easing contracts the delta by the factor 0.82 each tick,
and 0.82 ^ 33 * 180 is already below the snap threshold 0.3), after
which no further frame is requested. -/
theorem tick_convergence (t c : ℝ) (ht0 : 0 ≤ t) (ht1 : t < 360)
    (hc0 : 0 ≤ c) (hc1 : c < 360) :
    tickN t 34 c = t ∧ (tick t (tickN t 34 c)).2 = false := by
  have h34 : (34:ℕ) = 33 + 1 := rfl
  have key : tickN t 34 c = t := by
    rcases tickN_decay t ht0 ht1 33 c hc0 hc1 with heq | ⟨g0, g1, g2⟩
    · rw [h34, tickN_succ_outer, heq, tick_self]
    · have hb : |delta t c| ≤ 180 := by
        have ha : 0 ≤ t - c + 540 := by linarith
        have hl := delta_lb ha
        have hu := delta_ub ha
        rw [abs_le]
        exact ⟨by linarith, by linarith⟩
      have hd : |delta t (tickN t 33 c)| < 0.3 := by
        have hpow : (0.82:ℝ) ^ 33 * 180 < 0.3 := by norm_num
        have hmul : (0.82:ℝ) ^ 33 * |delta t c| ≤ (0.82:ℝ) ^ 33 * 180 :=
          mul_le_mul_of_nonneg_left hb (by positivity)
        linarith
      rw [h34, tickN_succ_outer, tick_snap hd]
  refine ⟨key, ?_⟩
  rw [key, tick_self]

/-- Witness for claim C6 at target 0, start 0. -/
theorem tick_convergence_witness :
    ((0:ℝ) ≤ 0 ∧ (0:ℝ) < 360) ∧
      (tickN 0 34 0 = 0 ∧ (tick 0 (tickN 0 34 0)).2 = false) :=
  ⟨⟨le_refl 0, by norm_num⟩,
    tick_convergence 0 0 (le_refl 0) (by norm_num) (le_refl 0) (by norm_num)⟩

/-- Claim C7: after a position update with both locations present, the
stored direction label equals bearingToDirection applied to the stored
degrees; both fields come from the single calculateBearing result. -/
theorem update_label_agreement (b p : GeoPoint) (s : CompassState) :
    (updateCompass (some b) (some p) s).direction =
      bearingToDirection ((updateCompass (some b) (some p) s).degrees) := rfl

/-- Claim C8: one tick maps a current angle in [0, 360) to an angle in
[0, 360), on both the snap and the ease branch, and since the initial
angle is 0 every reachable angle stays in [0, 360). -/
theorem tick_preserves_range (t c : ℝ) (ht0 : 0 ≤ t) (ht1 : t < 360)
    (hc0 : 0 ≤ c) (hc1 : c < 360) :
    (0 ≤ (tick t c).1 ∧ (tick t c).1 < 360) ∧
    (∀ n : ℕ, 0 ≤ tickN t n 0 ∧ tickN t n 0 < 360) := by
  refine ⟨tick_range ht0 ht1 hc0 hc1, ?_⟩
  intro n
  induction n with
  | zero =>
    rw [tickN_zero]
    exact ⟨le_refl 0, by norm_num⟩
  | succ n ih =>
    rw [tickN_succ_outer]
    exact tick_range ht0 ht1 ih.1 ih.2

/-- Witness for claim C8 at target 0, current 0. -/
theorem tick_preserves_range_witness :
    ((0:ℝ) ≤ 0 ∧ (0:ℝ) < 360) ∧
      ((0 ≤ (tick 0 0).1 ∧ (tick 0 0).1 < 360) ∧
       (∀ n : ℕ, 0 ≤ tickN 0 n 0 ∧ tickN 0 n 0 < 360)) :=
  ⟨⟨le_refl 0, by norm_num⟩,
    tick_preserves_range 0 0 (le_refl 0) (by norm_num) (le_refl 0) (by norm_num)⟩

/-- Claim C9: once the current angle equals the target exactly, a tick
computes delta 0, which is below the snap threshold, so it snaps to the
same value and requests no further frame: the state is a fixed point of
ticking. -/
theorem tick_idle_fixed (t : ℝ) :
    tick t t = (t, false) ∧ ∀ n : ℕ, tickN t n t = t :=
  ⟨tick_self t, tickN_fixed t⟩

/-- Claim C10: Math.round rounds halves upward, so every odd multiple
of 11.25 in [0, 360) is classified into the clockwise-next sector; in
particular 11.25 gives NNE, 33.75 gives NE, and 348.75 wraps through
index 16 mod 16 back to N. -/
theorem boundary_tiebreak (m : ℕ) (hm : m < 16) :
    bearingToDirection ((2 * (m:ℝ) + 1) * 11.25) =
      directions.get? ((m + 1) % 16) ∧
    bearingToDirection 11.25 = some "NNE" ∧
    bearingToDirection 33.75 = some "NE" ∧
    bearingToDirection 348.75 = some "N" := by
  have hx : ((2 * (m:ℝ) + 1) * 11.25) / 22.5 + 1/2 = (m:ℝ) + 1 := by
    field_simp
    ring
  have hr : roundJS (((2 * (m:ℝ) + 1) * 11.25) / 22.5) = ((m + 1 : ℕ) : ℤ) := by
    apply roundJS_eq
    · rw [hx]
      push_cast
      linarith
    · rw [hx]
      push_cast
      linarith
  refine ⟨bearingToDirection_eval_mod hr, ?_, ?_, ?_⟩
  · rw [bearingToDirection_eval (n := 1)
      (roundJS_eq _ (by norm_num) (by norm_num)) (by norm_num)]
    rfl
  · rw [bearingToDirection_eval (n := 2)
      (roundJS_eq _ (by norm_num) (by norm_num)) (by norm_num)]
    rfl
  · have hr16 : roundJS ((348.75:ℝ) / 22.5) = ((16:ℕ) : ℤ) :=
      roundJS_eq _ (by norm_num) (by norm_num)
    rw [bearingToDirection_eval_mod hr16]
    rfl

/-- Witness for claim C10 at m = 0, the boundary bearing 11.25. -/
theorem boundary_tiebreak_witness :
    (0:ℕ) < 16 ∧
      bearingToDirection ((2 * ((0:ℕ):ℝ) + 1) * 11.25) =
        directions.get? (((0:ℕ) + 1) % 16) :=
  ⟨by norm_num, (boundary_tiebreak 0 (by norm_num)).1⟩
